import Mathlib

/-
  Verification development for the definition-matching and documentation-splicing
  engine of the autodoc repository (src/autodocumentation_python/insert_docstrings.py
  and src/autodocumentation_python/create_docstrings.py).

  Python strings are embedded as `List Char` (`Text`); Python source files are
  the raw character list of their contents.  The Python `ast` module and the
  external GPT collaborator are opaque collaborators of the engine: they are
  passed in as function parameters (`parse`, `gpt`); their documented semantics
  (breadth-first `ast.walk` order, `ast.get_docstring` cleaning, `astunparse`
  rendering of argument lists) are embedded as executable Lean functions.
-/

namespace Autodoc

abbrev Text := List Char

/-- Character list of a string literal. -/
def chars (s : String) : Text := s.data

/-- ASCII whitespace, the set matched by Python's str.strip and by regex \s. -/
def isWs (c : Char) : Bool :=
  c = ' ' || c = '\t' || c = '\n' || c = '\r' || c = '\x0b' || c = '\x0c'

/-- Repeat the space character, as in Python's `" " * indent`. -/
def spaces (n : Nat) : Text := List.replicate n ' '

/-- Python `text.split('\n')`: the empty string yields one empty line. -/
def splitNl : Text → List Text
  | [] => [[]]
  | c :: rest =>
    if c = '\n' then [] :: splitNl rest
    else
      match splitNl rest with
      | t :: ts => (c :: t) :: ts
      | [] => [[c]]

/-- Python `'\n'.join(lines)`. -/
def joinNl (ls : List Text) : Text :=
  match ls with
  | [] => []
  | [l] => l
  | l :: ls => l ++ '\n' :: joinNl ls

/-- Python `file.readlines()`: split into lines, each keeping its trailing newline. -/
def splitKeepNl : Text → List Text
  | [] => []
  | c :: rest =>
    if c = '\n' then ['\n'] :: splitKeepNl rest
    else
      match splitKeepNl rest with
      | l :: ls => (c :: l) :: ls
      | [] => [[c]]

/-- Python `''.join(lines)`. -/
def joinAll (ls : List Text) : Text := ls.foldr (· ++ ·) []

/-- Python `text.lstrip()`. -/
def trimLeft (l : Text) : Text := l.dropWhile isWs

/-- Python `text.rstrip()`. -/
def trimRight (l : Text) : Text := (l.reverse.dropWhile isWs).reverse

/-- Python `text.strip()`. -/
def trimBoth (l : Text) : Text := trimLeft (trimRight l)

/-- Python `str.expandtabs()` with tab size 8; `col` is the current column,
reset by newline and carriage return. -/
def expandTabs : Text → Nat → Text
  | [], _ => []
  | c :: rest, col =>
    if c = '\t' then spaces (8 - col % 8) ++ expandTabs rest 0
    else if c = '\n' || c = '\r' then c :: expandTabs rest 0
    else c :: expandTabs rest (col + 1)

/-- Leading-whitespace width of a line, `none` when the line is blank
(matches the `if content:` guard of inspect.cleandoc). -/
def lineIndent (l : Text) : Option Nat :=
  let st := l.dropWhile isWs
  if st.isEmpty then none else some (l.length - st.length)

/-- Python `inspect.cleandoc`, the cleaning applied by `ast.get_docstring`:
expand tabs, lstrip the first line, dedent the remaining lines by their
common margin, and drop leading and trailing blank lines. -/
def cleandoc (doc : Text) : Text :=
  let ls0 := splitNl (expandTabs doc 0)
  let margin : Option Nat := (ls0.drop 1).foldl
    (fun m l =>
      match lineIndent l, m with
      | none, m0 => m0
      | some i, none => some i
      | some i, some m0 => some (min m0 i)) none
  let ls1 : List Text :=
    match ls0 with
    | [] => []
    | l0 :: rest =>
      (l0.dropWhile isWs) ::
        (match margin with
         | none => rest
         | some mg => rest.map (fun l => List.drop mg l))
  let ls2 := (ls1.dropWhile List.isEmpty).reverse.dropWhile List.isEmpty |>.reverse
  joinNl ls2

/-! Regex model for `find_end_of_definition`'s pattern `(:\s*)$|(:\s*#.*$)`
(searched with `re.search(..., re.M)` in each line).  After a colon the
pattern matches when the remaining characters up to the end of the string
(or up to a newline, where the multiline `$` anchors) are whitespace, or
when whitespace is followed by a `#` comment (after which `.*$` always
succeeds). -/

/-- Does `(\s*)$|(\s*#.*$)` match the characters following a colon? -/
def afterColon : Text → Bool
  | [] => true
  | '\n' :: _ => true
  | '#' :: _ => true
  | c :: rest => isWs c && afterColon rest

/-- Does `re.search('(:\s*)$|(:\s*#.*$)', line, re.M)` find a match in `line`? -/
def lineColonMatch : Text → Bool
  | [] => false
  | ':' :: rest => afterColon rest || lineColonMatch rest
  | _ :: rest => lineColonMatch rest

/-! Regex model for `remove_start_end_lines`, which runs
`re.sub(pattern, "", docstrings, flags=re.MULTILINE | re.DOTALL)` with
pattern
`(^start$|^end$|^```python$|^```$|^(?!def|class)([a-zA-Z_]\w*)\s*\([^)]*\):\s*('''[^']*'''|"""[^"]*"""))`.
Every alternative is anchored at a line start; `$` is the multiline anchor
(end of string or before a newline); the pattern contains no dot outside
`#`-free context so DOTALL is irrelevant; each alternative matches
deterministically (greedy runs over character classes that cannot contain
the following delimiter). -/

/-- ASCII `\w`. -/
def isWordChar (c : Char) : Bool := c.isAlphanum || c = '_'

/-- ASCII `[a-zA-Z_]`. -/
def isIdentStart (c : Char) : Bool := c.isAlpha || c = '_'

/-- Multiline `$`: end of string or immediately before a newline. -/
def dollarAt : Text → Bool
  | [] => true
  | '\n' :: _ => true
  | _ => false

/-- Match a literal followed by the multiline `$`; returns the remainder. -/
def litThenDollar (lit : Text) (rest : Text) : Option Text :=
  if lit.isPrefixOf rest then
    let r := rest.drop lit.length
    if dollarAt r then some r else none
  else none

/-- Match `qqq[^q]*qqq` (a triple-quoted string with quote `q`); returns the
remainder. -/
def matchTriple (q : Char) (rest : Text) : Option Text :=
  if [q, q, q].isPrefixOf rest then
    let r1 := (rest.drop 3).dropWhile (fun c => c != q)
    if [q, q, q].isPrefixOf r1 then some (r1.drop 3) else none
  else none

/-- Match the fifth alternative
`(?!def|class)[a-zA-Z_]\w*\s*\([^)]*\):\s*('''[^']*'''|"""[^"]*""")`;
returns the remainder. -/
def matchSigDoc (rest : Text) : Option Text :=
  if (chars "def").isPrefixOf rest || (chars "class").isPrefixOf rest then none
  else
    match rest with
    | [] => none
    | c :: r =>
      if isIdentStart c then
        let r1 := r.dropWhile isWordChar
        let r2 := r1.dropWhile isWs
        match r2 with
        | '(' :: r3 =>
          let r4 := r3.dropWhile (fun c => c != ')')
          match r4 with
          | ')' :: ':' :: r5 =>
            let r6 := r5.dropWhile isWs
            match matchTriple '\'' r6 with
            | some r7 => some r7
            | none => matchTriple '"' r6
          | _ => none
        | _ => none
      else none

/-- Try the five alternatives of the pattern, in order, at a line start. -/
def matchAnyAt (rest : Text) : Option Text :=
  match litThenDollar (chars "start") rest with
  | some r => some r
  | none =>
  match litThenDollar (chars "end") rest with
  | some r => some r
  | none =>
  match litThenDollar (chars "```python") rest with
  | some r => some r
  | none =>
  match litThenDollar (chars "```") rest with
  | some r => some r
  | none => matchSigDoc rest

/-- Scanning loop of `re.sub(..., "")`: at every line start try the pattern
and, on a match, drop the matched span.  Each match consumes at least one
character and never ends with a newline, so after a match the position is
not at a line start.  The fuel starts at the text length, which each step
strictly decreases, so it never runs out. -/
def subScan : Nat → Text → Bool → Text
  | _, [], _ => []
  | 0, t, _ => t
  | f + 1, c :: rest, atLS =>
    if atLS then
      match matchAnyAt (c :: rest) with
      | some r => subScan f r false
      | none => c :: subScan f rest (c = '\n')
    else c :: subScan f rest (c = '\n')

/-- The `remove_start_end_lines` function of insert_docstrings.py. -/
def remove_start_end_lines (docstrings : Text) : Text :=
  subScan docstrings.length docstrings true

/-! Embedding of the fragment of Python's `ast` node language that the engine
inspects.  Each statement carries the position attributes the engine reads
(`lineno`, `end_lineno`, `col_offset`, all 1-based lines).  Expressions occur
only as class bases, argument annotations and defaults; no class or function
definition can occur inside an expression, so walking statements suffices to
enumerate definition nodes in `ast.walk` order. -/

structure Pos where
  lineno : Nat
  end_lineno : Nat
  col_offset : Nat
deriving DecidableEq

inductive PyExpr where
  | name (id : Text)
  | attr (value : PyExpr) (attrName : Text)
  | call (func : PyExpr)
  | intConst (n : Nat)
deriving DecidableEq

structure Arg where
  argName : Text
  ann : Option PyExpr
deriving DecidableEq

/-- An `ast.arguments` node restricted to plain positional parameters;
`defaults` right-aligns with `args` as in CPython. -/
structure Arguments where
  args : List Arg
  defaults : List PyExpr
deriving DecidableEq

inductive Stmt where
  | classDef (defName : Text) (bases : List PyExpr) (body : List Stmt) (pos : Pos)
  | functionDef (defName : Text) (argObj : Arguments) (body : List Stmt) (pos : Pos)
  | asyncFunctionDef (defName : Text) (argObj : Arguments) (body : List Stmt) (pos : Pos)
  | exprConst (value : Text) (pos : Pos)
  | ifStmt (body orelse : List Stmt) (pos : Pos)
  | passStmt (pos : Pos)
  | otherStmt (pos : Pos)

/-- A parsed module is its list of top-level statements. -/
abbrev Module := List Stmt

def Stmt.pos : Stmt → Pos
  | .classDef _ _ _ p => p
  | .functionDef _ _ _ p => p
  | .asyncFunctionDef _ _ _ p => p
  | .exprConst _ p => p
  | .ifStmt _ _ p => p
  | .passStmt p => p
  | .otherStmt p => p

def Stmt.lineno (s : Stmt) : Nat := s.pos.lineno

def Stmt.body : Stmt → List Stmt
  | .classDef _ _ b _ => b
  | .functionDef _ _ b _ => b
  | .asyncFunctionDef _ _ b _ => b
  | _ => []

/-- The `isinstance(node, (ast.ClassDef, ast.FunctionDef))` test used
throughout the engine.  `ast.AsyncFunctionDef` is a sibling class of
`ast.FunctionDef`, not a subclass, so async definitions fail this test. -/
def Stmt.isClassFunc : Stmt → Bool
  | .classDef _ _ _ _ => true
  | .functionDef _ _ _ _ => true
  | _ => false

def Stmt.isAsync : Stmt → Bool
  | .asyncFunctionDef _ _ _ _ => true
  | _ => false

/-- Child statements of a statement, in `ast.iter_child_nodes` field order
(restricted to statement children, which are the only ones that can contain
definitions). -/
def stmtChildren : Stmt → List Stmt
  | .classDef _ _ b _ => b
  | .functionDef _ _ b _ => b
  | .asyncFunctionDef _ _ b _ => b
  | .ifStmt b o _ => b ++ o
  | _ => []

mutual
def stmtSize : Stmt → Nat
  | .classDef _ _ b _ => 1 + stmtListSize b
  | .functionDef _ _ b _ => 1 + stmtListSize b
  | .asyncFunctionDef _ _ b _ => 1 + stmtListSize b
  | .ifStmt b o _ => 1 + stmtListSize b + stmtListSize o
  | .exprConst _ _ => 1
  | .passStmt _ => 1
  | .otherStmt _ => 1

def stmtListSize : List Stmt → Nat
  | [] => 0
  | s :: rest => stmtSize s + stmtListSize rest
end

/-- One breadth-first level step: all children of a queue, in order. -/
def childrenAll : List Stmt → List Stmt
  | [] => []
  | s :: rest => stmtChildren s ++ childrenAll rest

/-- Breadth-first traversal (`ast.walk` order restricted to statements),
level by level.  The fuel starts at the total statement count, which bounds
the nesting depth, so the traversal is never truncated. -/
def bfsWalk : Nat → List Stmt → List Stmt
  | _, [] => []
  | 0, q => q
  | f + 1, q => q ++ bfsWalk f (childrenAll q)

/-- `ast.walk` over a module, restricted to statement nodes (the Module node
itself and expression nodes carry no definitions). -/
def walkStmts (m : Module) : List Stmt := bfsWalk (stmtListSize m) m

/-- The lexical ancestry of a child of `s`, given the ancestry of `s`:
`find_parent_nodes` collects only `ClassDef`/`FunctionDef` parents,
outermost first. -/
def ancExtend (s : Stmt) (anc : List Text) : List Text :=
  match s with
  | .classDef n _ _ _ => anc ++ [n]
  | .functionDef n _ _ _ => anc ++ [n]
  | _ => anc

def pairSize (p : Stmt × List Text) : Nat := stmtSize p.1

def pairListSize : List (Stmt × List Text) → Nat
  | [] => 0
  | p :: rest => pairSize p + pairListSize rest

def childrenAnc : List (Stmt × List Text) → List (Stmt × List Text)
  | [] => []
  | (s, anc) :: rest =>
    (stmtChildren s).map (fun c => (c, ancExtend s anc)) ++ childrenAnc rest

/-- Breadth-first traversal carrying each node's `find_parent_nodes`
ancestry. -/
def bfsAnc : Nat → List (Stmt × List Text) → List (Stmt × List Text)
  | _, [] => []
  | 0, q => q
  | f + 1, q => q ++ bfsAnc f (childrenAnc q)

/-- `ast.walk` paired with `find_parent_nodes`, filtered to the
`(ast.ClassDef, ast.FunctionDef)` instances, exactly the nodes the matcher
iterates. -/
def walkDefsAnc (m : Module) : List (Stmt × List Text) :=
  (bfsAnc (stmtListSize m) (m.map (fun s => (s, [])))).filter
    (fun p => p.1.isClassFunc)

/-- `ast.walk` filtered to `(ast.ClassDef, ast.FunctionDef)` instances. -/
def walkDefs (m : Module) : List Stmt :=
  (walkStmts m).filter Stmt.isClassFunc

/-- `ast.get_docstring(node)`: the cleaned string constant that starts the
node's body, if any. -/
def get_docstring (s : Stmt) : Option Text :=
  match s.body with
  | .exprConst v _ :: _ => some (cleandoc v)
  | _ => none

/-! Model of `astunparse.unparse` on the expression and argument nodes above.
`astunparse` renders an `arg` node as `name` or `name: annotation`, joins
parameters with `", "`, and appends `=default` for the right-aligned
defaults; the top-level `unparse` appends a final newline, removed by the
caller's `.strip()`. -/

def unparseExpr : PyExpr → Text
  | .name id => id
  | .attr v a => unparseExpr v ++ '.' :: a
  | .call f => unparseExpr f ++ chars "()"
  | .intConst n => chars (toString n)

def unparseArg (a : Arg) : Text :=
  a.argName ++
    (match a.ann with
     | some t => chars ": " ++ unparseExpr t
     | none => [])

/-- Join with `", "`. -/
def joinComma (ls : List Text) : Text :=
  match ls with
  | [] => []
  | [l] => l
  | l :: ls => l ++ chars ", " ++ joinComma ls

def unparseArguments (a : Arguments) : Text :=
  let pad := a.args.length - a.defaults.length
  let padded : List (Option PyExpr) :=
    List.replicate pad none ++ a.defaults.map some
  joinComma ((a.args.zip padded).map
    (fun p =>
      unparseArg p.1 ++
        (match p.2 with
         | some d => '=' :: unparseExpr d
         | none => [])))

/-- First `try` of `get_name_args` for a class: `[base.id for base in bases]`,
which raises `AttributeError` at the first base that is not a plain
identifier. -/
def tryBaseIds : List PyExpr → Option (List Text)
  | [] => some []
  | .name id :: rest => (tryBaseIds rest).map (fun l => id :: l)
  | _ => none

/-- Second `try`: `[base.value.id for base in bases]`, which needs every base
to be an attribute access whose value is a plain identifier. -/
def tryBaseValueIds : List PyExpr → Option (List Text)
  | [] => some []
  | .attr (.name id) _ :: rest => (tryBaseValueIds rest).map (fun l => id :: l)
  | _ => none

/-- The class branch of `get_name_args`: join the base identifiers, falling
back to the bases' value identifiers, and to the empty string when both
comprehensions raise `AttributeError`. -/
def classArgsOf (bases : List PyExpr) : Text :=
  if bases.isEmpty then []
  else
    match tryBaseIds bases with
    | some ids => joinComma ids
    | none =>
      match tryBaseValueIds bases with
      | some ids => joinComma ids
      | none => []

/-- The `get_name_args` function of insert_docstrings.py; `none` models the
`UnboundLocalError` raised when the node is neither a `ClassDef` nor a
`FunctionDef` (never reached behind the `isinstance` filters). -/
def get_name_args : Stmt → Option (Text × Text)
  | .classDef n bases _ _ => some (n, classArgsOf bases)
  | .functionDef n argObj _ _ => some (n, trimBoth (unparseArguments argObj))
  | _ => none

/-- The `(name, signature, ancestry)` identity key of a definition node. -/
def computeKey (s : Stmt) (anc : List Text) : Option (Text × Text × List Text) :=
  (get_name_args s).map (fun p => (p.1, p.2, anc))

/-- The matching loop of `insert_1_docstring`: walk the code tree and return
the first `ClassDef`/`FunctionDef` whose name, signature and ancestry equal
the documentation node's. -/
def findMatchNode (key : Text × Text × List Text) (m : Module) :
    Option (Stmt × List Text) :=
  (walkDefsAnc m).find? (fun p => decide (computeKey p.1 p.2 = some key))

/-! The insertion-point locator and the splice operations. -/

/-- Python exception kinds distinguished by the engine's handlers. -/
inductive PyExc where
  | syntaxError
  | attributeError
  | nameError
  | indexError
  | apiError
deriving DecidableEq

/-- The `for i, line in enumerate(starting_text, start=1): ... break` loop of
`find_end_of_definition`: the 1-based index of the first line matching the
colon pattern, or the length of the slice when no line matches (the loop
variable retains its last value). -/
def scanI : List Text → Nat → Nat
  | [], i => i
  | [_], i => i
  | l :: l2 :: rest, i =>
    if lineColonMatch l then i else scanI (l2 :: rest) (i + 1)

/-- The `find_end_of_definition` function of insert_docstrings.py.  The slice
`code_lines[start_lno-1:end_lno-1]` covers the header lines before the first
body statement; an empty slice leaves the loop variable unbound, which
raises an uncaught `NameError`; an empty body raises `IndexError` at
`node.body[0]`. -/
def find_end_of_definition (code_lines : List Text) (node : Stmt) :
    Except PyExc Nat :=
  match node.body.head? with
  | none => .error .indexError
  | some body0 =>
    match (code_lines.drop (node.lineno - 1)).take (body0.lineno - node.lineno) with
    | [] => .error .nameError
    | l :: ls => .ok (node.lineno + scanI (l :: ls) 1)

/-- The `shift_docstring` function of insert_docstrings.py: wrap the text in
triple-quote delimiter lines, strip, and indent every line, appending one
final newline; `None` becomes the empty string. -/
def shift_docstring : Option Text → Nat → Text
  | none, _ => []
  | some d, indent =>
    let doc := joinNl [chars "\"\"\"", d, chars "\"\"\""]
    let lines := splitNl (trimBoth doc)
    joinNl (lines.map (fun l => spaces indent ++ l)) ++ ['\n']

/-- Python `del lines[start-1]` iterated `cnt` times. -/
def deleteLoop (lines : List Text) (start : Nat) : Nat → List Text
  | 0 => lines
  | c + 1 => deleteLoop (lines.eraseIdx (start - 1)) start c

/-- Python `lines.insert(idx, x)`. -/
def pyInsert (lines : List Text) (idx : Nat) (x : Text) : List Text :=
  lines.take idx ++ x :: lines.drop idx

/-- The replace-mode splice of `insert_1_docstring`: delete the lines of the
old docstring (`[start, end]`, 1-based, inclusive) and insert the new block
at `start`. -/
def spliceReplace (lines : List Text) (start endL : Nat) (block : Text) :
    List Text :=
  pyInsert (deleteLoop lines start (endL - start + 1)) (start - 1) block

/-! The documentation reconciler and the per-file pipeline.  The external
collaborators are parameters: `gpt` models `gpt_compare` (and `gptapi`),
`parse` models `ast.parse`; both may fail with an exception. -/

/-- The `gpt_compare` prompt of `compare_docstrings`, with the two docstrings
spliced into the f-string. -/
def compareCommand (old_docstring new_docstring : Text) : Text :=
  chars "\nI want to update an old docstring to a new one generated by GPT. Compare these two and if there is any\ninformation in the old one that is not in the new one, add it to the new one. If there is no difference,\njust return the new docstring - no further notification. Maximal 90 characters per line. \nYour output whould start with \"start\" and end with \"end\".\nold docstring:\n"
    ++ old_docstring ++ chars "\nnew docstring:\n" ++ new_docstring ++ chars "\n"

/-- The `compare_docstrings` function of insert_docstrings.py.  When the two
docstrings agree after stripping, the new one is returned without consulting
the collaborator; a `None` new docstring raises `AttributeError` at
`new_docstring.strip()`. -/
def compare_docstrings (gpt : Text → Except PyExc Text)
    (old_docstring : Text) (new_docstring : Option Text) : Except PyExc Text :=
  match new_docstring with
  | none => .error .attributeError
  | some n =>
    if trimBoth old_docstring = trimBoth n then .ok n
    else gpt (compareCommand old_docstring n)

def Stmt.defNameOf : Stmt → Text
  | .classDef n _ _ _ => n
  | .functionDef n _ _ _ => n
  | .asyncFunctionDef n _ _ _ => n
  | _ => []

/-- The body of `insert_1_docstring` after the file has been read and parsed:
match the documentation node against the code tree, locate the insertion
point, reconcile, splice, and return the persisted content.  The first
component is the `return node_doc` / `return None` value. -/
def insert_1_core (gpt : Text → Except PyExc Text) (node_doc : Stmt)
    (anc_doc : List Text) (fileContent : Text) (tree_code : Module) :
    Except PyExc (Option Stmt × Text) :=
  let lines_code := splitKeepNl fileContent
  match get_name_args node_doc with
  | none => .error .nameError
  | some nd =>
    match findMatchNode (nd.1, nd.2, anc_doc) tree_code with
    | none => .ok (none, fileContent)
    | some nc =>
      let node_code := nc.1
      let docstring := get_docstring node_doc
      match get_docstring node_code with
      | some old =>
        (compare_docstrings gpt old docstring).bind (fun cmp =>
          let d := trimBoth (remove_start_end_lines cmp)
          match node_code.body.head? with
          | none => .error .indexError
          | some body0 =>
            let start := body0.pos.lineno
            let endL := body0.pos.end_lineno
            let shifted := shift_docstring (some d) body0.pos.col_offset
            .ok (some node_doc,
                 joinAll (spliceReplace lines_code start endL shifted)))
      | none =>
        match find_end_of_definition lines_code node_code with
        | .error e => .error e
        | .ok fe =>
          match node_code.body.head? with
          | none => .error .indexError
          | some body0 =>
            let shifted := shift_docstring docstring body0.pos.col_offset
            .ok (some node_doc, joinAll (pyInsert lines_code (fe - 1) shifted))

abbrev Parse := Text → Except PyExc Module

/-- The `insert_1_docstring` function: re-read the persisted file, re-parse
it, and run the matching and splicing body on the fresh tree. -/
def insert_1_full (gpt : Text → Except PyExc Text) (parse : Parse)
    (node_doc : Stmt) (anc_doc : List Text) (file : Text) :
    Except PyExc (Option Stmt × Text) :=
  (parse file).bind (fun tree_code =>
    insert_1_core gpt node_doc anc_doc file tree_code)

/-- The node loop of `insert_docstrings`: process the documentation nodes in
order, threading the persisted file content; `AttributeError` from one node
is caught and that node skipped; any other exception propagates and aborts
the loop. -/
def insertLoop (gpt : Text → Except PyExc Text) (parse : Parse) :
    List (Nat × Stmt × List Text) → Text → List Nat →
    Except PyExc (Text × List Nat)
  | [], file, ins => .ok (file, ins)
  | (idx, d, a) :: rest, file, ins =>
    match insert_1_full gpt parse d a file with
    | .ok (some _, file2) => insertLoop gpt parse rest file2 (ins ++ [idx])
    | .ok (none, file2) => insertLoop gpt parse rest file2 ins
    | .error .attributeError => insertLoop gpt parse rest file ins
    | .error e => .error e

/-- Result of processing one file: the final persisted content, the indices
(in documentation-tree walk order) of the inserted nodes, the number of
documentation definition nodes, and the names of the code tree's
definitions — the data from which the insertion report is printed. -/
structure InsertOutcome where
  finalFile : Text
  insertedIdx : List Nat
  docDefCount : Nat
  codeDefNames : List Text

/-- The `insert_docstrings` function of insert_docstrings.py. -/
def insert_docstrings (gpt : Text → Except PyExc Text) (parse : Parse)
    (file docstrings : Text) : Except PyExc InsertOutcome :=
  let ds := remove_start_end_lines docstrings
  (parse file).bind (fun tree_code =>
    let numb_nodes_code := (walkDefs tree_code).map Stmt.defNameOf
    (parse ds).bind (fun tree_doc =>
      let docDefs := walkDefsAnc tree_doc
      (insertLoop gpt parse docDefs.enum file []).bind (fun r =>
        .ok ⟨r.1, r.2, docDefs.length, numb_nodes_code⟩)))

/-- The `class_or_func_present` check of create_docstrings.py over a parsed
module: does `ast.walk` reach any `ClassDef`/`FunctionDef`? -/
def class_or_func_present (m : Module) : Bool :=
  (walkStmts m).any Stmt.isClassFunc

/-- The direct-analysis branch of `create_docstrings` (files at most 300
lines, cost 'cheap'): skip generation entirely when the source has no
class or function definition, otherwise call the collaborator and strip a
leading `'''python` line and a trailing `'''` line from its output. -/
def create_docstrings_cheap (gpt : Text → Except PyExc Text) (parse : Parse)
    (code : Text) : Except PyExc Text :=
  (parse code).bind (fun m =>
    if class_or_func_present m then
      (gpt code).bind (fun edited =>
        let ls := splitNl edited
        let ls1 :=
          match ls with
          | l0 :: rest => if (chars "'''python").isPrefixOf l0 then rest else ls
          | [] => ls
        match ls1.getLast? with
        | none => .error .indexError
        | some ll =>
          let ls2 := if (chars "'''").isPrefixOf ll then ls1.dropLast else ls1
          .ok (joinNl ls2))
    else .ok [])

/-! Concrete fixtures: small Python sources together with the trees that
`ast.parse` produces for them (the parse collaborator is instantiated with a
lookup over exactly these texts). -/

/-- Source `def f():\n    'old'\n\ndef g():\n    pass\n`: a function `f`
with an existing docstring followed by a function `g` without one. -/
def c9file : Text := chars "def f():\n    'old'\n\ndef g():\n    pass\n"

/-- The tree of `c9file`. -/
def c9fcode : Stmt :=
  .functionDef (chars "f") ⟨[], []⟩ [.exprConst (chars "old") ⟨2, 2, 4⟩] ⟨1, 2, 0⟩

def c9gcode : Stmt :=
  .functionDef (chars "g") ⟨[], []⟩ [.passStmt ⟨5, 5, 4⟩] ⟨4, 5, 0⟩

/-- Generated documentation text with docstrings for both `f` and `g`. -/
def c9docText : Text := chars "def f():\n    'new doc'\n\ndef g():\n    'gdoc'\n"

/-- The tree of `c9docText`. -/
def c9fdoc : Stmt :=
  .functionDef (chars "f") ⟨[], []⟩ [.exprConst (chars "new doc") ⟨2, 2, 4⟩] ⟨1, 2, 0⟩

def c9gdoc : Stmt :=
  .functionDef (chars "g") ⟨[], []⟩ [.exprConst (chars "gdoc") ⟨5, 5, 4⟩] ⟨4, 5, 0⟩

/-- The parse collaborator on the two texts of the reconciliation-failure
run. -/
def parseC9 : Parse := fun t =>
  if t = c9file then .ok [c9fcode, c9gcode]
  else if t = c9docText then .ok [c9fdoc, c9gdoc]
  else .error .syntaxError

/-- A reconciliation collaborator that fails (as a network or API error
would) with an exception that is not an `AttributeError`. -/
def gptFail : Text → Except PyExc Text := fun _ => .error .apiError

/-- Source `def h():\n    'old'\n`, for the caught `AttributeError` case. -/
def c9afile : Text := chars "def h():\n    'old'\n"

def c9ahcode : Stmt :=
  .functionDef (chars "h") ⟨[], []⟩ [.exprConst (chars "old") ⟨2, 2, 4⟩] ⟨1, 2, 0⟩

/-- Documentation text `def h():\n    pass\n` whose node carries no
docstring, so reconciliation hits `None.strip()`. -/
def c9adocText : Text := chars "def h():\n    pass\n"

def c9ahdoc : Stmt :=
  .functionDef (chars "h") ⟨[], []⟩ [.passStmt ⟨2, 2, 4⟩] ⟨1, 2, 0⟩

def parseC9a : Parse := fun t =>
  if t = c9afile then .ok [c9ahcode]
  else if t = c9adocText then .ok [c9ahdoc]
  else .error .syntaxError

/-- Source `def g():\n    pass\n`, for a successful insert splice. -/
def g2file : Text := chars "def g():\n    pass\n"

def g2code : Stmt :=
  .functionDef (chars "g") ⟨[], []⟩ [.passStmt ⟨2, 2, 4⟩] ⟨1, 2, 0⟩

def g2docText : Text := chars "def g():\n    'doc'\n"

def g2doc : Stmt :=
  .functionDef (chars "g") ⟨[], []⟩ [.exprConst (chars "doc") ⟨2, 2, 4⟩] ⟨1, 2, 0⟩

def parseG2 : Parse := fun t =>
  if t = g2file then .ok [g2code]
  else if t = g2docText then .ok [g2doc]
  else .error .syntaxError

/-- The persisted content after splicing `'doc'` into `g2file`. -/
def g2fileAfter : Text :=
  chars "def g():\n    \"\"\"\n    doc\n    \"\"\"\n    pass\n"

/-- Module for the source
`if True:\n    def f():\n        pass\ndef f():\n    pass\n`:
the first definition of `f` (line 2) is nested under an `if` statement, the
second (line 4) is top-level; both have the identity key `("f", "", [])`.
`ast.walk` visits the top-level one first (breadth-first), although the
nested one comes first in document order. -/
def cm1f2 : Stmt := .functionDef (chars "f") ⟨[], []⟩ [.passStmt ⟨3, 3, 8⟩] ⟨2, 3, 4⟩

def cm1f4 : Stmt := .functionDef (chars "f") ⟨[], []⟩ [.passStmt ⟨5, 5, 4⟩] ⟨4, 5, 0⟩

def cm1 : Module := [.ifStmt [cm1f2] [] ⟨1, 3, 0⟩, cm1f4]

/-- Line buffer of
`def f(a={\n    'k':\n        1}):\n    pass\n` — a header whose trailing
colon is on line 3 but whose line 2 already ends with a colon (a dict
default split across lines). -/
def c4lines : List Text :=
  [chars "def f(a=\x7b\n", chars "    'k':\n",
   chars "        1\x7d):\n", chars "    pass\n"]

def c4node : Stmt :=
  .functionDef (chars "f") ⟨[⟨chars "a", none⟩], []⟩ [.passStmt ⟨4, 4, 4⟩] ⟨1, 4, 0⟩

/-- Source `def f(a,\n        b): return 1\n`: the header span scanned by the
locator is the single line `def f(a,` which contains no colon. -/
def c8file : Text := chars "def f(a,\n        b): return 1\n"

def c8args : Arguments := ⟨[⟨chars "a", none⟩, ⟨chars "b", none⟩], []⟩

def c8code : Stmt := .functionDef (chars "f") c8args [.otherStmt ⟨2, 2, 12⟩] ⟨1, 2, 0⟩

def c8doc : Stmt :=
  .functionDef (chars "f") c8args [.exprConst (chars "d8") ⟨2, 2, 4⟩] ⟨1, 2, 0⟩

/-- A module whose only definition-like node is an `async def`. -/
def asyncOnlyModule : Module :=
  [.asyncFunctionDef (chars "f") ⟨[], []⟩ [.passStmt ⟨2, 2, 4⟩] ⟨1, 2, 0⟩]

/-- A parse collaborator producing the async-only module. -/
def parseAsync : Parse := fun _ => .ok asyncOnlyModule

/-- Source `def e1(): pass\n`, whose body starts on the header line, so the
header slice scanned by the locator is empty. -/
def e1file : Text := chars "def e1(): pass\n"

def e1code : Stmt :=
  .functionDef (chars "e1") ⟨[], []⟩ [.passStmt ⟨1, 1, 10⟩] ⟨1, 1, 0⟩

def e1docText : Text := chars "def e1():\n    'd'\n"

def e1doc : Stmt :=
  .functionDef (chars "e1") ⟨[], []⟩ [.exprConst (chars "d") ⟨2, 2, 4⟩] ⟨1, 2, 0⟩

def parseE1 : Parse := fun t =>
  if t = e1file then .ok [e1code]
  else if t = e1docText then .ok [e1doc]
  else .error .syntaxError

/-- A three-line buffer for exercising the splice frame property. -/
def lines0 : List Text := [chars "a\n", chars "b\n", chars "c\n"]

/-- `def f(a: int)` and `def f(a)`: argument lists differing only in a type
annotation. -/
def c6fAnn : Stmt :=
  .functionDef (chars "f") ⟨[⟨chars "a", some (.name (chars "int"))⟩], []⟩ [] ⟨1, 1, 0⟩

def c6fPlain : Stmt :=
  .functionDef (chars "f") ⟨[⟨chars "a", none⟩], []⟩ [] ⟨1, 1, 0⟩

/-- The persisted content after the malformed-header insert splice on
`c8file`. -/
def c8fileAfter : Text :=
  chars "def f(a,\n            \"\"\"\n            d8\n            \"\"\"\n        b): return 1\n"

/-! Statement vocabulary for the class-signature characterization: base
expressions that are plain identifiers, and attribute accesses on plain
identifiers, with their extracted identifier. -/

def baseIsName : PyExpr → Bool
  | .name _ => true
  | _ => false

def baseRawId : PyExpr → Text
  | .name id => id
  | _ => []

def baseIsAttrName : PyExpr → Bool
  | .attr (.name _) _ => true
  | _ => false

def baseRawValId : PyExpr → Text
  | .attr (.name id) _ => id
  | _ => []

/-! Helper lemmas about the text and buffer primitives. -/

theorem getLast?_cons_of_ne_nil {α : Type} (a : α) (l : List α) (h : l ≠ []) :
    (a :: l).getLast? = l.getLast? := by
  cases l with
  | nil => cases h rfl
  | cons b r => exact List.getLast?_cons_cons

theorem trimLeft_eq_self (l : Text) (c : Char) (hc : isWs c = false)
    (h : l.head? = some c) : trimLeft l = l := by
  cases l with
  | nil => simp at h
  | cons a r =>
    simp only [List.head?_cons, Option.some_inj] at h
    subst h
    unfold trimLeft
    rw [List.dropWhile_cons, hc]
    simp

theorem trimRight_eq_self (l : Text) (c : Char) (hc : isWs c = false)
    (h : l.getLast? = some c) : trimRight l = l := by
  unfold trimRight
  have hr : l.reverse.head? = some c := by rw [List.head?_reverse]; exact h
  cases hrev : l.reverse with
  | nil => rw [hrev] at hr; simp at hr
  | cons a r =>
    rw [hrev] at hr
    simp only [List.head?_cons, Option.some_inj] at hr
    subst hr
    rw [List.dropWhile_cons, hc]
    simp only [Bool.false_eq_true, if_false]
    rw [← hrev, List.reverse_reverse]

theorem trimBoth_eq_self (l : Text) (c d : Char) (hc : isWs c = false)
    (hd : isWs d = false) (h1 : l.head? = some c) (h2 : l.getLast? = some d) :
    trimBoth l = l := by
  unfold trimBoth
  rw [trimRight_eq_self l d hd h2, trimLeft_eq_self l c hc h1]

theorem splitNl_ne_nil (l : Text) : splitNl l ≠ [] := by
  cases l with
  | nil => simp [splitNl]
  | cons c rest =>
    rw [splitNl]
    by_cases h : c = '\n'
    · simp [h]
    · simp only [h, if_false]
      cases splitNl rest <;> simp

theorem splitNl_nl (l : Text) : splitNl ('\n' :: l) = [] :: splitNl l := by
  rw [splitNl, if_pos rfl]

theorem splitNl_cons_ne (c : Char) (l : Text) (t0 : Text) (ts : List Text)
    (h : ¬ c = '\n') (hs : splitNl l = t0 :: ts) :
    splitNl (c :: l) = (c :: t0) :: ts := by
  rw [splitNl, if_neg h, hs]

theorem joinNl_cons_cons (l l2 : Text) (r2 : List Text) :
    joinNl (l :: l2 :: r2) = l ++ '\n' :: joinNl (l2 :: r2) := rfl

theorem splitNl_getLast (l : Text) (c : Char) (hc : ¬ c = '\n')
    (h : l.getLast? = some c) :
    ∃ t, (splitNl l).getLast? = some t ∧ t.getLast? = some c := by
  induction l with
  | nil => simp at h
  | cons a rest ih =>
    cases rest with
    | nil =>
      simp only [List.getLast?_singleton, Option.some_inj] at h
      subst h
      have hsa : splitNl [a] = [[a]] := by
        rw [splitNl, if_neg hc]
        rfl
      exact ⟨[a], by rw [hsa]; rfl, rfl⟩
    | cons b r =>
      rw [List.getLast?_cons_cons] at h
      obtain ⟨t, ht1, ht2⟩ := ih h
      by_cases ha : a = '\n'
      · subst ha
        rw [splitNl_nl]
        rw [getLast?_cons_of_ne_nil ([] : Text) (splitNl (b :: r)) (splitNl_ne_nil _)]
        exact ⟨t, ht1, ht2⟩
      · cases hs : splitNl (b :: r) with
        | nil => cases splitNl_ne_nil _ hs
        | cons t0 ts =>
          rw [splitNl_cons_ne a _ t0 ts ha hs]
          cases ts with
          | nil =>
            rw [hs] at ht1
            simp only [List.getLast?_singleton, Option.some_inj] at ht1
            subst ht1
            refine ⟨a :: t0, by rfl, ?_⟩
            rw [getLast?_cons_of_ne_nil]
            · exact ht2
            · intro he; subst he; simp at ht2
          | cons t1 ts2 =>
            rw [hs] at ht1
            rw [List.getLast?_cons_cons] at ht1
            refine ⟨t, ?_, ht2⟩
            rw [List.getLast?_cons_cons]
            exact ht1

theorem joinNl_getLast (ls : List Text) (t : Text) (c : Char)
    (h1 : ls.getLast? = some t) (h2 : t.getLast? = some c) :
    (joinNl ls).getLast? = some c := by
  induction ls with
  | nil => simp at h1
  | cons l rest ih =>
    cases rest with
    | nil =>
      simp only [List.getLast?_singleton, Option.some_inj] at h1
      subst h1
      exact h2
    | cons l2 r2 =>
      rw [List.getLast?_cons_cons] at h1
      have hrec := ih h1
      rw [joinNl_cons_cons]
      have hne : joinNl (l2 :: r2) ≠ [] := by
        intro he; rw [he] at hrec; simp at hrec
      rw [List.getLast?_append_of_ne_nil l
        (by simp : ('\n' :: joinNl (l2 :: r2)) ≠ [])]
      rw [getLast?_cons_of_ne_nil _ _ hne]
      exact hrec

/-- The block written by `shift_docstring` for a present docstring always
ends with the closing delimiter's quote followed by exactly one newline. -/
theorem shift_docstring_last (d : Text) (indent : Nat) :
    ∃ q, shift_docstring (some d) indent = q ++ ['\n'] ∧ q.getLast? = some '"' := by
  have hdoc : joinNl [chars "\"\"\"", d, chars "\"\"\""]
      = chars "\"\"\"" ++ '\n' :: (d ++ '\n' :: chars "\"\"\"") := rfl
  have hdoc_last : (joinNl [chars "\"\"\"", d, chars "\"\"\""]).getLast? = some '"' := by
    rw [hdoc]
    rw [List.getLast?_append_of_ne_nil (chars "\"\"\"")
      (by simp : ('\n' :: (d ++ '\n' :: chars "\"\"\"")) ≠ [])]
    rw [getLast?_cons_of_ne_nil '\n' (d ++ '\n' :: chars "\"\"\"") (by simp)]
    rw [List.getLast?_append_of_ne_nil d (by simp : ('\n' :: chars "\"\"\"") ≠ [])]
    rfl
  have hdoc_head : (joinNl [chars "\"\"\"", d, chars "\"\"\""]).head? = some '"' := rfl
  have htrim : trimBoth (joinNl [chars "\"\"\"", d, chars "\"\"\""])
      = joinNl [chars "\"\"\"", d, chars "\"\"\""] :=
    trimBoth_eq_self _ '"' '"' rfl rfl hdoc_head hdoc_last
  obtain ⟨t, ht1, ht2⟩ := splitNl_getLast _ '"' (by decide) hdoc_last
  have htne : t ≠ [] := by intro he; subst he; simp at ht2
  refine ⟨joinNl ((splitNl (trimBoth (joinNl [chars "\"\"\"", d, chars "\"\"\""]))).map
    (fun l => spaces indent ++ l)), rfl, ?_⟩
  rw [htrim]
  have hmap : ((splitNl (joinNl [chars "\"\"\"", d, chars "\"\"\""])).map
      (fun l => spaces indent ++ l)).getLast? = some (spaces indent ++ t) := by
    rw [List.getLast?_map, ht1]
    rfl
  refine joinNl_getLast _ (spaces indent ++ t) '"' hmap ?_
  rw [List.getLast?_append_of_ne_nil (spaces indent) htne]
  exact ht2

theorem deleteLoop_eq (c : Nat) : ∀ (lines : List Text) (s : Nat), 1 ≤ s →
    s - 1 + c ≤ lines.length →
    deleteLoop lines s c = lines.take (s - 1) ++ lines.drop (s - 1 + c) := by
  induction c with
  | zero =>
    intro lines s h1 h2
    simp [deleteLoop]
  | succ k ih =>
    intro lines s h1 h2
    rw [deleteLoop, List.eraseIdx_eq_take_drop_succ]
    have hs1 : s - 1 + 1 = s := by omega
    have hlen : (lines.take (s - 1)).length = s - 1 := by
      rw [List.length_take]; omega
    rw [hs1]
    rw [ih _ s h1 (by rw [List.length_append, hlen, List.length_drop]; omega)]
    rw [List.take_append_eq_append_take, List.drop_append_eq_append_drop]
    rw [hlen, Nat.sub_self, List.take_zero, List.append_nil, List.take_take,
      Nat.min_self]
    rw [List.drop_eq_nil_of_le (le_of_eq_of_le hlen (by omega)),
      List.nil_append, List.drop_drop]
    have harith : s + (s - 1 + k - (s - 1)) = s - 1 + (k + 1) := by omega
    rw [harith]

theorem spliceReplace_eq (lines : List Text) (s e : Nat) (block : Text)
    (h1 : 1 ≤ s) (h2 : s ≤ e) (h3 : e ≤ lines.length) :
    spliceReplace lines s e block = lines.take (s - 1) ++ block :: lines.drop e := by
  unfold spliceReplace pyInsert
  rw [deleteLoop_eq _ _ _ h1 (by omega)]
  have he : s - 1 + (e - s + 1) = e := by omega
  rw [he]
  have hlen : (lines.take (s - 1)).length = s - 1 := by
    rw [List.length_take]; omega
  rw [List.take_append_eq_append_take, hlen, Nat.sub_self, List.take_zero,
    List.append_nil, List.take_take, Nat.min_self]
  rw [List.drop_append_eq_append_drop, hlen, Nat.sub_self, List.drop_zero,
    List.drop_eq_nil_of_le (le_of_eq_of_le hlen (le_refl _)), List.nil_append]

theorem spliceReplace_frame (lines : List Text) (s e : Nat) (block : Text)
    (h1 : 1 ≤ s) (h2 : s ≤ e) (h3 : e ≤ lines.length) :
    (∀ i, i < s - 1 → (spliceReplace lines s e block)[i]? = lines[i]?) ∧
    (∀ j, (spliceReplace lines s e block)[s + j]? = lines[e + j]?) := by
  rw [spliceReplace_eq lines s e block h1 h2 h3]
  have hlen : (lines.take (s - 1)).length = s - 1 := by
    rw [List.length_take]; omega
  constructor
  · intro i hi
    rw [List.getElem?_append, if_pos (by omega : i < (lines.take (s - 1)).length)]
    rw [List.getElem?_take, if_pos (by omega : i < s - 1)]
  · intro j
    rw [List.getElem?_append_right (by omega : (lines.take (s - 1)).length ≤ s + j)]
    rw [hlen]
    have hidx : s + j - (s - 1) = j + 1 := by omega
    rw [hidx]
    simp only [List.getElem?_cons_succ]
    rw [List.getElem?_drop]

theorem pyInsert_frame (lines : List Text) (p : Nat) (block : Text)
    (hp : p ≤ lines.length) :
    (∀ i, i < p → (pyInsert lines p block)[i]? = lines[i]?) ∧
    (∀ j, (pyInsert lines p block)[p + 1 + j]? = lines[p + j]?) := by
  unfold pyInsert
  have hlen : (lines.take p).length = p := by
    rw [List.length_take]; omega
  constructor
  · intro i hi
    rw [List.getElem?_append, if_pos (by omega : i < (lines.take p).length)]
    rw [List.getElem?_take, if_pos hi]
  · intro j
    rw [List.getElem?_append_right (by omega : (lines.take p).length ≤ p + 1 + j)]
    rw [hlen]
    have hidx : p + 1 + j - p = j + 1 := by omega
    rw [hidx]
    simp only [List.getElem?_cons_succ]
    rw [List.getElem?_drop]

theorem scanI_eq (ls : List Text) (h : ls ≠ []) : ∀ (i : Nat),
    scanI ls i = i + min (ls.findIdx lineColonMatch) (ls.length - 1) := by
  induction ls with
  | nil => cases h rfl
  | cons l rest ih =>
    intro i
    cases rest with
    | nil =>
      rw [scanI]
      simp
    | cons l2 r2 =>
      rw [scanI]
      by_cases hm : lineColonMatch l
      · rw [if_pos hm, List.findIdx_cons, hm]
        simp
      · have hm2 : lineColonMatch l = false := by simpa using hm
        have hfi : List.findIdx lineColonMatch (l :: l2 :: r2)
            = List.findIdx lineColonMatch (l2 :: r2) + 1 := by
          rw [List.findIdx_cons, hm2]
          rfl
        have hl1 : (l2 :: r2).length - 1 = r2.length := by simp
        have hl2 : (l :: l2 :: r2).length - 1 = r2.length + 1 := by simp
        rw [if_neg hm, ih (by simp) (i + 1), hfi, hl1, hl2, Nat.succ_min_succ]
        omega

theorem find?_decomp {α : Type} (p : α → Bool) (l : List α) (x : α)
    (h : l.find? p = some x) :
    p x = true ∧ ∃ l1 l2, l = l1 ++ x :: l2 ∧ ∀ y ∈ l1, p y = false := by
  induction l with
  | nil => simp at h
  | cons a rest ih =>
    by_cases hp : p a
    · rw [List.find?_cons_of_pos rest hp] at h
      simp only [Option.some_inj] at h
      subst h
      exact ⟨hp, [], rest, rfl, by simp⟩
    · rw [List.find?_cons_of_neg rest (by simpa using hp)] at h
      obtain ⟨hx, l1, l2, heq, hall⟩ := ih h
      refine ⟨hx, a :: l1, l2, by rw [heq]; rfl, ?_⟩
      intro y hy
      rcases List.mem_cons.mp hy with rfl | hy2
      · simpa using hp
      · exact hall y hy2

/-! Claim theorems. -/

/-- Claim C1, amended: the matcher pairs a documentation node with a code
node exactly when the code node's `(name, signature, ancestry)` key equals
the documentation node's; the code-tree nodes are iterated in `ast.walk`
breadth-first order (not document order), and the first key-equal node in
that order is the one matched, so of several code nodes sharing an
identical key only the walk-order-first occurrence is ever matched and
later same-key definitions remain unmatched. -/
theorem C1_match_walk_order (key : Text × Text × List Text) (m : Module) :
    (∀ c a, findMatchNode key m = some (c, a) →
      computeKey c a = some key ∧
      ∃ l1 l2, walkDefsAnc m = l1 ++ (c, a) :: l2 ∧
        ∀ q ∈ l1, computeKey q.1 q.2 ≠ some key) ∧
    (findMatchNode key m = none ↔
      ∀ q ∈ walkDefsAnc m, computeKey q.1 q.2 ≠ some key) := by
  constructor
  · intro c a h
    obtain ⟨hp, l1, l2, heq, hall⟩ := find?_decomp _ _ _ h
    refine ⟨of_decide_eq_true hp, l1, l2, heq, ?_⟩
    intro q hq
    have hfq := hall q hq
    simpa using hfq
  · unfold findMatchNode
    rw [List.find?_eq_none]
    constructor
    · intro h q hq
      simpa using h q hq
    · intro h q hq
      simpa using h q hq

/-- Claim C1, counterexample to "iterated in document order": in the module
for `if True:\n    def f():\n        pass\ndef f():\n    pass\n`, the two
definitions of `f` share the key `("f", "", [])`; the document-order-first
one starts on line 2, yet the matcher, which follows `ast.walk`'s
breadth-first order, pairs the key with the top-level definition on line 4
and leaves the line-2 definition unmatched. -/
theorem C1_document_order_cex :
    walkDefsAnc cm1 = [(cm1f4, []), (cm1f2, [])] ∧
    findMatchNode (chars "f", [], []) cm1 = some (cm1f4, []) ∧
    computeKey cm1f2 [] = computeKey cm1f4 [] ∧
    cm1f2.lineno = 2 ∧ cm1f4.lineno = 4 :=
  ⟨rfl, rfl, rfl, rfl, rfl⟩

/-- Witness for C1's amended theorem at the concrete shadowed module. -/
theorem C1_match_walk_order_witness :
    computeKey cm1f4 [] = some (chars "f", [], []) :=
  ((C1_match_walk_order (chars "f", [], []) cm1).1 cm1f4 [] rfl).1

/-- Claim C2: for a single splice — replace of lines `[s, e]` or insert at
position `p` — every buffer line outside the edited range is unchanged (the
prefix is byte-identical and the suffix reappears shifted), and the written
block produced by `shift_docstring` ends with exactly one trailing
newline. -/
theorem C2_splice_frame_and_newline (lines : List Text) (s e p : Nat)
    (d : Text) (indent : Nat)
    (h1 : 1 ≤ s) (h2 : s ≤ e) (h3 : e ≤ lines.length) (hp : p ≤ lines.length) :
    (∀ i, i < s - 1 →
      (spliceReplace lines s e (shift_docstring (some d) indent))[i]? = lines[i]?) ∧
    (∀ j, (spliceReplace lines s e (shift_docstring (some d) indent))[s + j]?
      = lines[e + j]?) ∧
    (∀ i, i < p →
      (pyInsert lines p (shift_docstring (some d) indent))[i]? = lines[i]?) ∧
    (∀ j, (pyInsert lines p (shift_docstring (some d) indent))[p + 1 + j]?
      = lines[p + j]?) ∧
    (∃ q, shift_docstring (some d) indent = q ++ ['\n'] ∧ q.getLast? ≠ some '\n') := by
  obtain ⟨hf1, hf2⟩ := spliceReplace_frame lines s e _ h1 h2 h3
  obtain ⟨hg1, hg2⟩ := pyInsert_frame lines p _ hp
  obtain ⟨q, hq1, hq2⟩ := shift_docstring_last d indent
  refine ⟨hf1, hf2, hg1, hg2, q, hq1, ?_⟩
  rw [hq2]
  intro hx
  cases hx

/-- Witness for C2 on a concrete three-line buffer. -/
theorem C2_splice_frame_and_newline_witness :
    (spliceReplace lines0 2 2 (shift_docstring (some (chars "x")) 0))[0]? = lines0[0]? ∧
    (spliceReplace lines0 2 2 (shift_docstring (some (chars "x")) 0))[2]? = lines0[2]? ∧
    (pyInsert lines0 1 (shift_docstring (some (chars "x")) 0))[0]? = lines0[0]? ∧
    (pyInsert lines0 1 (shift_docstring (some (chars "x")) 0))[2]? = lines0[1]? ∧
    (∃ q, shift_docstring (some (chars "x")) 0 = q ++ ['\n'] ∧ q.getLast? ≠ some '\n') := by
  have h := C2_splice_frame_and_newline lines0 2 2 1 (chars "x") 0
    (by decide) (by decide) (by decide) (by decide)
  exact ⟨h.1 0 (by decide), h.2.1 0, h.2.2.1 0 (by decide), h.2.2.2.1 0, h.2.2.2.2⟩

/-- Claim C3: `insert_1_docstring` obtains its code tree by parsing the
persisted file content it is handed (never a cached tree), and after a
successful splice the node loop continues on the newly persisted content,
so every match is located against a tree re-parsed after the previous
splice and no line position computed before an edit is reused after it. -/
theorem C3_reparse_each_splice (gpt : Text → Except PyExc Text) (parse : Parse)
    (idx : Nat) (node_doc : Stmt) (anc : List Text)
    (rest : List (Nat × Stmt × List Text)) (file : Text) (ins : List Nat) :
    insert_1_full gpt parse node_doc anc file
      = (parse file).bind (fun tree_code =>
          insert_1_core gpt node_doc anc file tree_code) ∧
    (∀ n file2, insert_1_full gpt parse node_doc anc file = .ok (some n, file2) →
      insertLoop gpt parse ((idx, node_doc, anc) :: rest) file ins
        = insertLoop gpt parse rest file2 (ins ++ [idx])) := by
  refine ⟨rfl, fun n file2 h => ?_⟩
  rw [insertLoop, h]

/-- Witness for C3 on the concrete successful splice into `g2file`. -/
theorem C3_reparse_each_splice_witness :
    insert_1_full gptFail parseG2 g2doc [] g2file
      = (parseG2 g2file).bind (fun t => insert_1_core gptFail g2doc [] g2file t) ∧
    insertLoop gptFail parseG2 [(0, g2doc, []), (7, g2doc, [])] g2file []
      = insertLoop gptFail parseG2 [(7, g2doc, [])] g2fileAfter [0] := by
  have h := C3_reparse_each_splice gptFail parseG2 0 g2doc [] [(7, g2doc, [])] g2file []
  exact ⟨h.1, h.2 g2doc g2fileAfter rfl⟩

/-- Claim C4, amended: for a matched node without an existing docstring the
locator scans the header span for the FIRST line whose colon ends the line
or precedes an inline comment — which in a multi-line header need not carry
the header's trailing colon — and returns the line after it (the line after
the whole span when no line matches); the block is then inserted at that
position, indented to the first body statement's indentation. -/
theorem C4_locator_first_colon_line (code_lines : List Text) (node : Stmt)
    (body0 : Stmt) (hb : node.body.head? = some body0)
    (hspan : (code_lines.drop (node.lineno - 1)).take (body0.lineno - node.lineno) ≠ []) :
    find_end_of_definition code_lines node
      = .ok (node.lineno + 1 +
          min (((code_lines.drop (node.lineno - 1)).take
                  (body0.lineno - node.lineno)).findIdx lineColonMatch)
              (((code_lines.drop (node.lineno - 1)).take
                  (body0.lineno - node.lineno)).length - 1)) ∧
    (∀ (gpt : Text → Except PyExc Text) (node_doc : Stmt) (anc : List Text)
       (fileContent : Text) (tree_code : Module) (nd : Text × Text)
       (nc : Stmt × List Text) (b0 : Stmt) (fe : Nat),
      get_name_args node_doc = some nd →
      findMatchNode (nd.1, nd.2, anc) tree_code = some nc →
      get_docstring nc.1 = none →
      nc.1.body.head? = some b0 →
      find_end_of_definition (splitKeepNl fileContent) nc.1 = .ok fe →
      insert_1_core gpt node_doc anc fileContent tree_code
        = .ok (some node_doc,
            joinAll (pyInsert (splitKeepNl fileContent) (fe - 1)
              (shift_docstring (get_docstring node_doc) b0.pos.col_offset)))) := by
  constructor
  · unfold find_end_of_definition
    rw [hb]
    cases hst : (code_lines.drop (node.lineno - 1)).take (body0.lineno - node.lineno) with
    | nil => cases hspan hst
    | cons l ls =>
      show (match (code_lines.drop (node.lineno - 1)).take (body0.lineno - node.lineno) with
        | [] => Except.error PyExc.nameError
        | l :: ls => Except.ok (node.lineno + scanI (l :: ls) 1)) = _
      rw [hst]
      show Except.ok (node.lineno + scanI (l :: ls) 1) = _
      rw [scanI_eq (l :: ls) (by simp) 1, Nat.add_assoc]
  · intro gpt node_doc anc fileContent tree_code nd nc b0 fe hnd hfm hds hb0 hfe
    simp only [insert_1_core, hnd, hfm, hds, hb0, hfe]

/-- Claim C4, counterexample to "the line on which the header's trailing
colon appears": in `def f(a={\n    'k':\n        1}):\n    pass\n` the
header's trailing colon is on line 3, so the claim places the block on line
4, but line 2 (`    'k':`, inside the dict default) already matches the
colon pattern, so the locator returns 3 and the block lands before the
header's last line. -/
theorem C4_trailing_colon_cex :
    find_end_of_definition c4lines c4node = .ok 3 ∧
    lineColonMatch (chars "        1\x7d):\n") = true ∧
    (3 : Nat) ≠ 4 := ⟨rfl, rfl, by decide⟩

/-- Witness for C4 on the concrete single-line-header file `g2file`. -/
theorem C4_locator_first_colon_line_witness :
    find_end_of_definition (splitKeepNl g2file) g2code = .ok (1 + 1 + min 0 0) ∧
    insert_1_core gptFail g2doc [] g2file [g2code]
      = .ok (some g2doc, joinAll (pyInsert (splitKeepNl g2file) (2 - 1)
          (shift_docstring (get_docstring g2doc) (Pos.mk 2 2 4).col_offset))) := by
  have h := C4_locator_first_colon_line (splitKeepNl g2file) g2code
    (.passStmt ⟨2, 2, 4⟩) rfl (by decide)
  exact ⟨h.1, h.2 gptFail g2doc [] g2file [g2code] (chars "g", []) (g2code, [])
    (.passStmt ⟨2, 2, 4⟩) 2 rfl rfl rfl rfl rfl⟩

/-- Claim C5: when the old and new docstrings agree after stripping
surrounding whitespace, reconciliation returns the new docstring unchanged
and the result does not depend on the external collaborator (no call is
made). -/
theorem C5_reconcile_noop (gpt gpt2 : Text → Except PyExc Text)
    (old_docstring new_docstring : Text)
    (h : trimBoth old_docstring = trimBoth new_docstring) :
    compare_docstrings gpt old_docstring (some new_docstring) = .ok new_docstring ∧
    compare_docstrings gpt old_docstring (some new_docstring)
      = compare_docstrings gpt2 old_docstring (some new_docstring) := by
  constructor
  · simp [compare_docstrings, h]
  · simp [compare_docstrings, h]

/-- Witness for C5 at a pair equal after trimming. -/
theorem C5_reconcile_noop_witness :
    compare_docstrings gptFail (chars " x ") (some (chars "x")) = .ok (chars "x") :=
  (C5_reconcile_noop gptFail gptFail (chars " x ") (chars "x") (by decide)).1

/-- Claim C6, counterexample to "not type annotations": `def f(a: int)` and
`def f(a)` differ only in a type annotation, yet their identity keys
differ, because the signature is the `astunparse` rendering of the argument
list, which includes annotations. -/
theorem C6_annotation_key_cex :
    computeKey c6fAnn [] ≠ computeKey c6fPlain [] := by decide

/-- Claim C6, amended: the identity-key signature of a function is the
unparsed parameter list including names, default values AND type
annotations, so two function definitions that differ only in a type
annotation (one annotated parameter against the same parameter bare)
compute different keys. -/
theorem C6_signature_includes_annotations (nm a t : Text) (anc : List Text)
    (b1 b2 : List Stmt) (p1 p2 : Pos)
    (ha : a ≠ []) (haw : ∀ c ∈ a, isWs c = false)
    (ht : t ≠ []) (htw : ∀ c ∈ t, isWs c = false) :
    computeKey (.functionDef nm ⟨[⟨a, some (.name t)⟩], []⟩ b1 p1) anc
      ≠ computeKey (.functionDef nm ⟨[⟨a, none⟩], []⟩ b2 p2) anc := by
  intro h
  simp only [computeKey, get_name_args, Option.map_some', Option.some.injEq,
    Prod.mk.injEq, true_and, and_true] at h
  have e1 : unparseArguments ⟨[⟨a, some (.name t)⟩], []⟩ = a ++ (chars ": " ++ t) := by
    simp [unparseArguments, unparseArg, unparseExpr, joinComma]
  have e2 : unparseArguments ⟨[⟨a, none⟩], []⟩ = a := by
    simp [unparseArguments, unparseArg, joinComma]
  rw [e1, e2] at h
  cases a with
  | nil => exact ha rfl
  | cons c0 r0 =>
    have hc0 : isWs c0 = false := haw c0 (by simp)
    have htl : t.getLast? = some (t.getLast ht) := List.getLast?_eq_getLast_of_ne_nil ht
    have hcl : isWs (t.getLast ht) = false := htw _ (List.getLast_mem ht)
    have hlast1 : ((c0 :: r0) ++ (chars ": " ++ t)).getLast? = some (t.getLast ht) := by
      rw [List.getLast?_append_of_ne_nil (c0 :: r0) (by simp [chars] : (chars ": " ++ t) ≠ [])]
      rw [List.getLast?_append_of_ne_nil (chars ": ") ht]
      exact htl
    have hlastA : (c0 :: r0).getLast? = some ((c0 :: r0).getLast (by simp)) :=
      List.getLast?_eq_getLast_of_ne_nil (by simp)
    have hclA : isWs ((c0 :: r0).getLast (by simp)) = false :=
      haw _ (List.getLast_mem (by simp))
    have t1 : trimBoth ((c0 :: r0) ++ (chars ": " ++ t)) = (c0 :: r0) ++ (chars ": " ++ t) :=
      trimBoth_eq_self _ c0 (t.getLast ht) hc0 hcl rfl hlast1
    have t2 : trimBoth (c0 :: r0) = c0 :: r0 :=
      trimBoth_eq_self _ c0 ((c0 :: r0).getLast (by simp)) hc0 hclA rfl hlastA
    rw [t1, t2] at h
    have hlen := congrArg List.length h
    simp only [List.length_append] at hlen
    have htpos : 0 < t.length := List.length_pos.mpr ht
    simp [chars] at hlen

/-- Witness for C6's amended theorem at a concrete annotated parameter. -/
theorem C6_signature_includes_annotations_witness :
    computeKey (.functionDef (chars "w6") ⟨[⟨chars "b", some (.name (chars "str"))⟩], []⟩
        [] ⟨1, 1, 0⟩) []
      ≠ computeKey (.functionDef (chars "w6") ⟨[⟨chars "b", none⟩], []⟩ [] ⟨1, 1, 0⟩) [] :=
  C6_signature_includes_annotations (chars "w6") (chars "b") (chars "str") [] [] []
    ⟨1, 1, 0⟩ ⟨1, 1, 0⟩ (by decide) (by decide) (by decide) (by decide)

theorem tryBaseIds_eq (bases : List PyExpr) :
    tryBaseIds bases
      = if bases.all baseIsName then some (bases.map baseRawId) else none := by
  induction bases with
  | nil => rfl
  | cons b rest ih =>
    cases b with
    | name id =>
      show (tryBaseIds rest).map (fun l => id :: l) = _
      rw [ih]
      by_cases hall : rest.all baseIsName
      · simp [hall, baseIsName, baseRawId]
      · simp [hall, baseIsName]
    | attr v a =>
      show (none : Option (List Text)) = _
      simp [baseIsName]
    | call f =>
      show (none : Option (List Text)) = _
      simp [baseIsName]
    | intConst n =>
      show (none : Option (List Text)) = _
      simp [baseIsName]

theorem tryBaseValueIds_eq (bases : List PyExpr) :
    tryBaseValueIds bases
      = if bases.all baseIsAttrName then some (bases.map baseRawValId) else none := by
  induction bases with
  | nil => rfl
  | cons b rest ih =>
    cases b with
    | attr v a =>
      cases v with
      | name id =>
        show (tryBaseValueIds rest).map (fun l => id :: l) = _
        rw [ih]
        by_cases hall : rest.all baseIsAttrName
        · simp [hall, baseIsAttrName, baseRawValId]
        · simp [hall, baseIsAttrName]
      | attr v2 a2 =>
        show (none : Option (List Text)) = _
        simp [baseIsAttrName]
      | call f =>
        show (none : Option (List Text)) = _
        simp [baseIsAttrName]
      | intConst n =>
        show (none : Option (List Text)) = _
        simp [baseIsAttrName]
    | name id =>
      show (none : Option (List Text)) = _
      simp [baseIsAttrName]
    | call f =>
      show (none : Option (List Text)) = _
      simp [baseIsAttrName]
    | intConst n =>
      show (none : Option (List Text)) = _
      simp [baseIsAttrName]

/-- Claim C7: key computation for a class never fails — `get_name_args`
always returns a name and signature — and the signature is the joined base
identifiers when every base is a plain identifier, else the joined value
identifiers when every base is an attribute access on a plain identifier,
else the empty signature. -/
theorem C7_class_signature_total (nm : Text) (bases : List PyExpr)
    (body : List Stmt) (p : Pos) :
    get_name_args (.classDef nm bases body p) = some (nm, classArgsOf bases) ∧
    classArgsOf bases =
      (if bases.all baseIsName then joinComma (bases.map baseRawId)
       else if bases.all baseIsAttrName then joinComma (bases.map baseRawValId)
       else []) := by
  refine ⟨rfl, ?_⟩
  unfold classArgsOf
  rw [tryBaseIds_eq, tryBaseValueIds_eq]
  by_cases h0 : bases.isEmpty
  · have hb : bases = [] := List.isEmpty_iff.mp h0
    subst hb
    simp [joinComma]
  · rw [if_neg h0]
    by_cases h1 : bases.all baseIsName
    · simp [h1]
    · by_cases h2 : bases.all baseIsAttrName
      · simp [h1, h2]
      · simp [h1, h2]

/-- Claim C8, amended: no `MalformedHeader` error exists.  When the scanned
header span is nonempty and contains no colon-terminated line the locator
silently returns the first body line, so the block is inserted there and
the node is recorded as inserted; when the span is empty (the body starts
on the header's line) an unhandled `NameError` is raised, which is not
caught by the node loop and aborts the remaining nodes of the file. -/
theorem C8_no_malformed_header_error
    (gpt : Text → Except PyExc Text) (parse : Parse)
    (code_lines : List Text) (node : Stmt) (body0 : Stmt)
    (idx : Nat) (d : Stmt) (a : List Text) (rest : List (Nat × Stmt × List Text))
    (file : Text) (ins : List Nat)
    (hb : node.body.head? = some body0) :
    (((code_lines.drop (node.lineno - 1)).take (body0.lineno - node.lineno)) ≠ [] →
      ((code_lines.drop (node.lineno - 1)).take (body0.lineno - node.lineno)).all
        (fun l => !lineColonMatch l) = true →
      ((code_lines.drop (node.lineno - 1)).take (body0.lineno - node.lineno)).length
        = body0.lineno - node.lineno →
      find_end_of_definition code_lines node = .ok body0.lineno) ∧
    (((code_lines.drop (node.lineno - 1)).take (body0.lineno - node.lineno)) = [] →
      find_end_of_definition code_lines node = .error .nameError) ∧
    (insert_1_full gpt parse d a file = .error .nameError →
      insertLoop gpt parse ((idx, d, a) :: rest) file ins = .error .nameError) := by
  refine ⟨?_, ?_, ?_⟩
  · intro hne hall hlen
    unfold find_end_of_definition
    rw [hb]
    cases hst : (code_lines.drop (node.lineno - 1)).take (body0.lineno - node.lineno) with
    | nil => cases hne hst
    | cons l ls =>
      rw [hst] at hall hlen
      show (match (code_lines.drop (node.lineno - 1)).take (body0.lineno - node.lineno) with
        | [] => Except.error PyExc.nameError
        | l :: ls => Except.ok (node.lineno + scanI (l :: ls) 1)) = _
      rw [hst]
      show Except.ok (node.lineno + scanI (l :: ls) 1) = _
      rw [scanI_eq (l :: ls) (by simp) 1]
      have hnomatch : ∀ x ∈ (l :: ls), ¬ (lineColonMatch x = true) := by
        intro x hx
        have hax := List.all_eq_true.mp hall x hx
        simpa using hax
      have hle : (l :: ls).findIdx lineColonMatch ≤ (l :: ls).length :=
        List.findIdx_le_length lineColonMatch
      have hnlt : ¬ ((l :: ls).findIdx lineColonMatch < (l :: ls).length) := by
        rw [List.findIdx_lt_length]
        rintro ⟨x, hx, hpx⟩
        exact hnomatch x hx hpx
      have hfi : (l :: ls).findIdx lineColonMatch = (l :: ls).length := by omega
      rw [hfi, Nat.min_eq_right (by omega : (l :: ls).length - 1 ≤ (l :: ls).length)]
      have hlpos : 1 ≤ (l :: ls).length := by simp
      congr 1
      omega
  · intro hsp
    unfold find_end_of_definition
    rw [hb]
    show (match (code_lines.drop (node.lineno - 1)).take (body0.lineno - node.lineno) with
      | [] => Except.error PyExc.nameError
      | l :: ls => Except.ok (node.lineno + scanI (l :: ls) 1)) = _
    rw [hsp]
  · intro h
    rw [insertLoop, h]

/-- Claim C8, counterexample: for `def f(a,\n        b): return 1\n` the
scanned span is the single line `def f(a,`, which contains no
colon-terminated line, yet no error is signalled: the locator returns the
first body line and the full insertion body succeeds, returning the node as
inserted rather than skipping it. -/
theorem C8_silent_insert_cex :
    find_end_of_definition (splitKeepNl c8file) c8code = .ok 2 ∧
    lineColonMatch (chars "def f(a,\n") = false ∧
    insert_1_core gptFail c8doc [] c8file [c8code] = .ok (some c8doc, c8fileAfter) :=
  ⟨rfl, rfl, rfl⟩

/-- Witness for C8's amended theorem: the no-colon span on `c8file` yields
the first body line, the empty span on `e1file` yields `NameError`, and
that error aborts the node loop. -/
theorem C8_no_malformed_header_error_witness :
    find_end_of_definition (splitKeepNl c8file) c8code = .ok 2 ∧
    find_end_of_definition (splitKeepNl e1file) e1code = .error .nameError ∧
    insertLoop gptFail parseE1 [(0, e1doc, [])] e1file [] = .error .nameError := by
  have h1 := C8_no_malformed_header_error gptFail parseE1 (splitKeepNl c8file) c8code
    (.otherStmt ⟨2, 2, 12⟩) 0 e1doc [] [] e1file [] rfl
  have h2 := C8_no_malformed_header_error gptFail parseE1 (splitKeepNl e1file) e1code
    (.passStmt ⟨1, 1, 10⟩) 0 e1doc [] [] e1file [] rfl
  exact ⟨h1.1 (by decide) (by decide) (by decide), h2.2.1 rfl, h2.2.2 rfl⟩

/-- Claim C9, amended: only a reconciliation failure surfacing as
`AttributeError` is caught per node — the node's documentation is discarded,
the file content (and thus the old documentation) is left untouched, and the
loop continues with the next node; any other error from a node propagates
out of the loop and aborts the processing of that file's remaining nodes. -/
theorem C9_only_attribute_error_caught (gpt : Text → Except PyExc Text)
    (parse : Parse) (idx : Nat) (d : Stmt) (a : List Text)
    (rest : List (Nat × Stmt × List Text)) (file : Text) (ins : List Nat)
    (e : PyExc) :
    (insert_1_full gpt parse d a file = .error .attributeError →
      insertLoop gpt parse ((idx, d, a) :: rest) file ins
        = insertLoop gpt parse rest file ins) ∧
    (insert_1_full gpt parse d a file = .error e → e ≠ .attributeError →
      insertLoop gpt parse ((idx, d, a) :: rest) file ins = .error e) := by
  constructor
  · intro h
    rw [insertLoop, h]
  · intro h hne
    cases e with
    | attributeError => cases hne rfl
    | syntaxError => rw [insertLoop, h]
    | nameError => rw [insertLoop, h]
    | indexError => rw [insertLoop, h]
    | apiError => rw [insertLoop, h]

/-- Claim C9, counterexample: on a file with two documented definitions, the
reconciliation call for the first raises an API-style error (not an
`AttributeError`); instead of discarding that node's documentation and
continuing with the second node, the whole per-file run aborts with the
error. -/
theorem C9_reconciliation_abort_cex :
    insert_docstrings gptFail parseC9 c9file c9docText = .error .apiError ∧
    (walkDefsAnc [c9fdoc, c9gdoc]).length = 2 := ⟨rfl, rfl⟩

/-- Witness for C9's amended theorem: the `AttributeError` case is skipped
with the file untouched, the API-error case aborts the loop. -/
theorem C9_only_attribute_error_caught_witness :
    insertLoop gptFail parseC9a [(0, c9ahdoc, [])] c9afile []
      = insertLoop gptFail parseC9a [] c9afile [] ∧
    insertLoop gptFail parseC9 [(0, c9fdoc, [])] c9file [] = .error .apiError := by
  have h1 := C9_only_attribute_error_caught gptFail parseC9a 0 c9ahdoc [] [] c9afile []
    .attributeError
  have h2 := C9_only_attribute_error_caught gptFail parseC9 0 c9fdoc [] [] c9file []
    .apiError
  exact ⟨h1.1 rfl, h2.2 rfl (by decide)⟩

/-- Claim C10: async function definitions are never treated as definitions:
the walked definition lists (with and without ancestry) never contain an
async node, `class_or_func_present` is false exactly when the walk reaches
no class or function (in particular on the async-only module), the direct
generation branch returns the empty documentation set without consulting
the collaborator in that case, and the matcher never returns an async
node. -/
theorem C10_async_excluded :
    (∀ m : Module, ((walkDefs m).all (fun s => !s.isAsync)) = true) ∧
    (∀ m : Module, ((walkDefsAnc m).all (fun q => !q.1.isAsync)) = true) ∧
    (∀ m : Module, class_or_func_present m = false ↔ walkDefs m = []) ∧
    class_or_func_present asyncOnlyModule = false ∧
    (∀ (gpt : Text → Except PyExc Text) (parse : Parse) (code : Text) (m : Module),
      parse code = .ok m → class_or_func_present m = false →
      ∀ gpt2, create_docstrings_cheap gpt parse code = .ok []
        ∧ create_docstrings_cheap gpt2 parse code = .ok []) ∧
    (∀ (key : Text × Text × List Text) (m : Module) (c : Stmt) (a : List Text),
      findMatchNode key m = some (c, a) → c.isAsync = false) := by
  refine ⟨?_, ?_, ?_, rfl, ?_, ?_⟩
  · intro m
    rw [List.all_eq_true]
    intro s hs
    have h2 := (List.mem_filter.mp hs).2
    cases s <;> simp_all [Stmt.isClassFunc, Stmt.isAsync]
  · intro m
    rw [List.all_eq_true]
    intro q hq
    have h2 := (List.mem_filter.mp hq).2
    rcases q with ⟨s, anc⟩
    cases s <;> simp_all [Stmt.isClassFunc, Stmt.isAsync]
  · intro m
    unfold class_or_func_present walkDefs
    constructor
    · intro h
      rw [List.filter_eq_nil_iff]
      intro s hs hcf
      have hx : (walkStmts m).any Stmt.isClassFunc = true :=
        List.any_eq_true.mpr ⟨s, hs, hcf⟩
      rw [h] at hx
      cases hx
    · intro h
      cases hany : (walkStmts m).any Stmt.isClassFunc with
      | false => rfl
      | true =>
        obtain ⟨s, hs, hcf⟩ := List.any_eq_true.mp hany
        have hmem : s ∈ (walkStmts m).filter Stmt.isClassFunc :=
          List.mem_filter.mpr ⟨hs, hcf⟩
        rw [h] at hmem
        cases hmem
  · intro gpt parse code m hp hcf gpt2
    constructor
    · simp [create_docstrings_cheap, hp, Except.bind, hcf]
    · simp [create_docstrings_cheap, hp, Except.bind, hcf]
  · intro key m c a h
    unfold findMatchNode at h
    have hmem := List.mem_of_find?_eq_some h
    unfold walkDefsAnc at hmem
    have h2 := (List.mem_filter.mp hmem).2
    cases c <;> simp_all [Stmt.isClassFunc, Stmt.isAsync]

/-- Witness for C10: generation is skipped on the async-only module, and
the matched node of the concrete shadowed module is not async. -/
theorem C10_async_excluded_witness :
    create_docstrings_cheap gptFail parseAsync (chars "async def f():\n    pass\n")
      = .ok [] ∧
    cm1f4.isAsync = false := by
  have h := C10_async_excluded
  refine ⟨(h.2.2.2.2.1 gptFail parseAsync (chars "async def f():\n    pass\n")
    asyncOnlyModule rfl rfl gptFail).1, ?_⟩
  exact h.2.2.2.2.2 (chars "f", [], []) cm1 cm1f4 [] rfl

end Autodoc
